import Mathlib

/-!
Verification of the hydrologic condition and reference-statistics pipeline
of the river-router repository.

The Python modules `app/data/usgs_live_conditions.py`,
`app/data/usgs_percentiles.py` and `app/data/usgs_statistics_parallel.py`
are shallowly embedded below.  Python floats are modelled as exact
rationals (`ℚ`); the operations under study only compare, add, multiply
and divide, so the rational model is the exact idealisation of the code.
`datetime` timestamps are modelled as rational numbers of seconds
(`(t - base).total_seconds()` becomes subtraction).  Python dictionaries
with integer keys are modelled as association lists; where the code calls
`sorted(dict.keys())` the embedding sorts the association list by key, so
any list with pairwise-distinct keys faithfully represents a dict.
-/

namespace RiverRouter

/-! ### Flow status table, `usgs_live_conditions.py` lines 39–47

The Python dict `FLOW_STATUS` maps half-open percentile bands to labels;
iteration order is the literal order.  Band bounds are int literals only
ever compared against a float percentile, so they are embedded as `ℚ`. -/

def FLOW_STATUS : List ((ℚ × ℚ) × String) :=
  [((0, 5), "Much Below Normal"),
   ((5, 10), "Below Normal"),
   ((10, 25), "Below Normal"),
   ((25, 75), "Normal"),
   ((75, 90), "Above Normal"),
   ((90, 95), "Above Normal"),
   ((95, 100), "Much Above Normal")]

/-! ### Drought table, `usgs_live_conditions.py` lines 50–56

`sorted(DROUGHT_THRESHOLDS.items())` sorts by key; the literal list below
is already ascending in the key, matching the sorted iteration order. -/

def DROUGHT_THRESHOLDS : List (ℚ × String) :=
  [(2, "D4 - Exceptional Drought"),
   (5, "D3 - Extreme Drought"),
   (10, "D2 - Severe Drought"),
   (20, "D1 - Moderate Drought"),
   (30, "D0 - Abnormally Dry")]

/-- Embedding of `get_flow_status` (`usgs_live_conditions.py` 347–352):
scan the bands in dict order, return the label of the first band with
`low <= percentile < high`, else the fallback `"Normal"`. -/
def get_flow_status (percentile : ℚ) : String :=
  ((FLOW_STATUS.find? fun b => decide (b.1.1 ≤ percentile) && decide (percentile < b.1.2)).map
    (·.2)).getD "Normal"

/-- Embedding of `get_drought_status` (`usgs_live_conditions.py` 355–360):
scan thresholds in ascending key order, return the label of the first
threshold with `percentile < threshold`, else `None`. -/
def get_drought_status (percentile : ℚ) : Option String :=
  (DROUGHT_THRESHOLDS.find? fun t => decide (percentile < t.1)).map (·.2)

/-! ### Percentile interpolation, `usgs_live_conditions.py` lines 331–344 -/

/-- Embedding of `np.interp(x, xp, fp)` on a zipped list of
`(threshold value, percentile)` pairs, on the domain where the caller
uses it (`xp[0] < x < xp[-1]`, `xp` non-decreasing).  `np.interp` locates
the largest index `j` with `xp[j] ≤ x` (rightmost among ties), returns
`fp[j]` on an exact hit, and otherwise linearly interpolates between the
points `j` and `j+1`.  The recursion below walks right while the next
abscissa is still `≤ x`, which lands on exactly that index. -/
def np_interp (x : ℚ) : List (ℚ × ℚ) → ℚ
  | [] => 0
  | [(_, p)] => p
  | (v1, p1) :: (v2, p2) :: rest =>
    if v2 ≤ x then np_interp x ((v2, p2) :: rest)
    else if x = v1 then p1
    else p1 + (p2 - p1) / (v2 - v1) * (x - v1)

/-- Embedding of `interpolate_percentile` (`usgs_live_conditions.py`
331–344).  The thresholds dict is an association list with distinct
integer keys; `sorted(thresholds.keys())` becomes an insertion sort of
the pairs by key.  Fewer than 2 entries yields `none`; an input at or
below the first sorted value clamps to the first sorted key; at or above
the last sorted value clamps to the last sorted key; otherwise the
result is linear interpolation over the (value, key) pairs. -/
def interpolate_percentile (current_flow : ℚ) (thresholds : List (ℕ × ℚ)) : Option ℚ :=
  if thresholds.length < 2 then none
  else
    let s := List.insertionSort (fun a b : ℕ × ℚ => a.1 ≤ b.1) thresholds
    let sorted_vals := s.map Prod.snd
    let sorted_pcts := s.map fun q => (q.1 : ℚ)
    if current_flow ≤ sorted_vals.headD 0 then some (sorted_pcts.headD 0)
    else if sorted_vals.getLastD 0 ≤ current_flow then some (sorted_pcts.getLastD 0)
    else some (np_interp current_flow (sorted_vals.zip sorted_pcts))

/-! ### Trend analysis, `usgs_live_conditions.py` lines 58–62 and 243–302 -/

def TREND_MIN_POINTS : ℕ := 4

/-- Embedding of the `TrendResult` dataclass (`usgs_live_conditions.py`
65–72). -/
structure TrendResult where
  trend : String
  trend_rate : ℚ
  hours_since_peak : Option ℚ
  data_points : ℕ
deriving DecidableEq

/-- Arithmetic mean, `np.mean`; the empty list gives `0/0 = 0` in `ℚ` but
every use below is guarded by a length check. -/
def listMean (xs : List ℚ) : ℚ := xs.sum / xs.length

/-- Population variance, the square of `np.std(xs)` (numpy default
`ddof=0`).  The code's guard `np.std(vals) < 1e-10` is embedded as
`listVariance vals < 1/10^20`, which is equivalent because both sides of
the original comparison are nonnegative; this avoids the irrational
square root. -/
def listVariance (xs : List ℚ) : ℚ := (xs.map fun v => (v - listMean xs) ^ 2).sum / xs.length

/-- Embedding of `np.median`: sort, then take the middle element (odd
length) or the mean of the two middle elements (even length). -/
def np_median (xs : List ℚ) : ℚ :=
  let s := List.insertionSort (· ≤ ·) xs
  if s.length % 2 = 1 then s.getD (s.length / 2) 0
  else (s.getD (s.length / 2 - 1) 0 + s.getD (s.length / 2) 0) / 2

/-- Slope component of `np.polyfit(xs, ys, 1)`: the ordinary
least-squares slope in closed form,
`(n·Σxy − Σx·Σy) / (n·Σx² − (Σx)²)`. -/
def polyfit_slope (xs ys : List ℚ) : ℚ :=
  ((xs.length : ℚ) * (List.zipWith (· * ·) xs ys).sum - xs.sum * ys.sum) /
    ((xs.length : ℚ) * (xs.map fun x => x ^ 2).sum - xs.sum ^ 2)

/-- Embedding of `np.argmax`: index of the first occurrence of the
maximum value (later elements replace the running best only when
strictly greater). -/
def argmaxIdx (xs : List ℚ) : ℕ :=
  (xs.enum.foldl (fun best cur => if best.2 < cur.2 then cur else best) (0, xs.headD 0)).1

/-- Round to the nearest integer, ties to even: the rounding mode of
Python's builtin `round`.  The floats of the code are idealised as exact
rationals, so this is the exact-arithmetic counterpart of `round`. -/
def roundHalfEven (x : ℚ) : ℤ :=
  if x - ⌊x⌋ < 1/2 then ⌊x⌋
  else if 1/2 < x - ⌊x⌋ then ⌊x⌋ + 1
  else if ⌊x⌋ % 2 = 0 then ⌊x⌋ else ⌊x⌋ + 1

/-- Python's `round(x, ndigits)`. -/
def pyround (x : ℚ) (ndigits : ℕ) : ℚ := (roundHalfEven (x * 10 ^ ndigits) : ℚ) / 10 ^ ndigits

/-! The body of `calculate_trend` binds a sequence of local values
(`timestamps`, `vals`, `hours`, `total_hours`, `median_val`,
`normalized`, `slope`, `hours_since_peak`).  Each becomes a named
definition so that theorem statements can refer to the exact quantity
the code computes; `calculate_trend` itself is assembled from them. -/

/-- Local `timestamps = [v[0] for v in values]`, line 260; timestamps are
rational seconds. -/
def trendTimestamps (values : List (ℚ × ℚ)) : List ℚ := values.map Prod.fst

/-- Local `vals = np.array([v[1] for v in values])`, line 261. -/
def trendVals (values : List (ℚ × ℚ)) : List ℚ := values.map Prod.snd

/-- Local `hours`, line 269: elapsed hours of each timestamp from the
first one (`(t - base_time).total_seconds() / 3600`). -/
def trendHours (values : List (ℚ × ℚ)) : List ℚ :=
  (trendTimestamps values).map fun t => (t - (trendTimestamps values).headD 0) / 3600

/-- Local `total_hours = hours[-1] - hours[0]`, line 271. -/
def trendTotalHours (values : List (ℚ × ℚ)) : ℚ :=
  (trendHours values).getLastD 0 - (trendHours values).headD 0

/-- Local `normalized = (vals - median) / median * 100`, line 280. -/
def trendNormalized (values : List (ℚ × ℚ)) : List ℚ :=
  (trendVals values).map fun v =>
    (v - np_median (trendVals values)) / np_median (trendVals values) * 100

/-- Local `slope, _ = np.polyfit(hours, normalized, 1)`, line 283. -/
def trendRate (values : List (ℚ × ℚ)) : ℚ :=
  polyfit_slope (trendHours values) (trendNormalized values)

/-- Local `hours_since_peak`, lines 290–293: elapsed hours between the
last timestamp and the timestamp of the first maximum of the raw
values. -/
def hoursSincePeak (values : List (ℚ × ℚ)) : ℚ :=
  ((trendTimestamps values).getLastD 0 -
    (trendTimestamps values).getD (argmaxIdx (trendVals values)) 0) / 3600

/-- Embedding of `calculate_trend` (`usgs_live_conditions.py` 243–302).
Guards in code order: too few points, negligible standard deviation,
too-short time window, near-zero median; then classification of
`total_change = slope * total_hours` against the rising and falling
thresholds, with `hours_since_peak` reported only in the falling branch
and only when it exceeds half an hour. -/
def calculate_trend (values : List (ℚ × ℚ))
    (threshold_rising threshold_falling : ℚ) : TrendResult :=
  if values.length < TREND_MIN_POINTS then ⟨"unknown", 0, none, values.length⟩
  else if listVariance (trendVals values) < 1/10^20 then ⟨"stable", 0, none, values.length⟩
  else if trendTotalHours values < 1/2 then ⟨"unknown", 0, none, values.length⟩
  else if np_median (trendVals values) < 1/10^10 then ⟨"unknown", 0, none, values.length⟩
  else if threshold_rising ≤ trendRate values * trendTotalHours values then
    ⟨"rising", pyround (trendRate values) 2, none, values.length⟩
  else if trendRate values * trendTotalHours values ≤ threshold_falling then
    ⟨"falling", pyround (trendRate values) 2,
      if 1/2 < hoursSincePeak values then some (pyround (hoursSincePeak values) 1) else none,
      values.length⟩
  else ⟨"stable", pyround (trendRate values) 2, none, values.length⟩

/-! ### Manual percentile generation, `usgs_percentiles.py` lines 41 and 124–159 -/

def PERCENTILES : List ℕ := [5, 10, 25, 50, 75, 90, 95]

/-- Embedding of `np.percentile(data, q)` with the default linear
interpolation method: on the sorted data, the fractional order statistic
at position `h = (n−1)·q/100`. -/
def np_percentile (data : List ℚ) (q : ℕ) : ℚ :=
  let s := List.insertionSort (· ≤ ·) data
  let h : ℚ := ((s.length - 1 : ℕ) : ℚ) * q / 100
  let i : ℕ := (⌊h⌋).toNat
  s.getD i 0 + (h - (i : ℚ)) * (s.getD (i + 1) 0 - s.getD i 0)

/-- One output row of `calculate_percentiles_manual`: the day-of-year
key, the `month_day` pair written into the row, and the percentile
values.  The constant `site_id` column is omitted. -/
structure PercRow where
  doy : ℕ
  month_day : ℕ × ℕ
  pvals : List (ℕ × ℚ)
deriving DecidableEq

/-- Embedding of `calculate_percentiles_manual` (`usgs_percentiles.py`
124–159).  The input models the valid samples of the dataframe as
`(day-of-year, value)` pairs (`dropna` has no effect in the rational
model, where every value is a number).  For each day-of-year 1..366, a
row is emitted when the bucket holds at least 5 samples; its `month_day`
field is the code's approximate encoding
`f"{((doy-1)//31)+1:02d}-{((doy-1)%31)+1:02d}"`. -/
def calculate_percentiles_manual (samples : List (ℕ × ℚ)) : List PercRow :=
  (List.range' 1 366).filterMap fun doy =>
    let doy_data := (samples.filter fun s => s.1 == doy).map Prod.snd
    if doy_data.length < 5 then none
    else some { doy := doy
                month_day := ((doy - 1) / 31 + 1, (doy - 1) % 31 + 1)
                pvals := PERCENTILES.map fun p => (p, np_percentile doy_data p) }

/-! ### Parallel batch fetch, `usgs_statistics_parallel.py` lines 125–143 -/

/-- Embedding of `fetch_batch`.  The awaited HTTP call
(`session.get` plus `resp.text()`) is modelled by its outcome: either a
raised exception (`Except.error` with its message) or a response
`(status, body)`.  The RDB parser `parse_rdb_response` is irrelevant to
the failure-handling claim and is passed as a parameter, so the theorem
quantifies over every parser, the real one included.  The `try`/`except`
of the code catches every exception and returns the empty record list;
a non-200 status also returns the empty record list. -/
def fetch_batch {R : Type} (parse : String → List R)
    (outcome : Except String (ℕ × String)) : List R :=
  match outcome with
  | .error _ => []
  | .ok (status, body) => if status = 200 then parse body else []

/-! ### Comparison definitions taken from the spec's words -/

/-- Comparison definition following the spec's words, for the refinement
claim about flow bands: "Much Below Normal <5, Below Normal 5–25,
Normal 25–75, Above Normal 75–95, Much Above Normal ≥95", bands
half-open `[low, high)`. -/
def flowStatusSpec (p : ℚ) : String :=
  if p < 5 then "Much Below Normal"
  else if p < 25 then "Below Normal"
  else if p < 75 then "Normal"
  else if p < 95 then "Above Normal"
  else "Much Above Normal"

/-- Gregorian month lengths for a common or leap year. -/
def monthLengths (leap : Bool) : List ℕ :=
  [31, if leap then 29 else 28, 31, 30, 31, 30, 31, 31, 30, 31, 30, 31]

/-- Walk the month lengths, consuming days until the remaining count
fits inside a month. -/
def calendarAux : ℕ → ℕ → List ℕ → ℕ × ℕ
  | m, d, [] => (m, d)
  | m, d, len :: rest => if d ≤ len then (m, d) else calendarAux (m + 1) (d - len) rest

/-- Comparison definition following the spec's words, for the claim that
rows are "keyed by the true calendar date": the calendar (month, day)
corresponding to a day-of-year, for common and leap years. -/
def calendarMonthDayOfDoy (leap : Bool) (doy : ℕ) : ℕ × ℕ :=
  calendarAux 1 doy (monthLengths leap)

end RiverRouter


namespace RiverRouter

section Proofs

attribute [local semireducible] Rat.mul Rat.add Rat.inv Rat.sub

/-- C1 (counterexample): the claim asserts `get_drought_status 25 = none`,
but on the code a percentile of 25 is still below the 30 threshold, so
the scan returns the D0 label, not `None`. -/
theorem get_drought_status_at_25_cex :
    get_drought_status 25 = some "D0 - Abnormally Dry" ∧
    get_drought_status 25 ≠ none := by decide

/-- C1 (amended): `get_drought_status` returns the D4 label at
percentile 1 and the D0 label both at 25 (which is below the 30
threshold, so the claim's `None` is wrong there) and at 29.9. -/
theorem get_drought_status_examples :
    get_drought_status 1 = some "D4 - Exceptional Drought" ∧
    get_drought_status 25 = some "D0 - Abnormally Dry" ∧
    get_drought_status (299/10) = some "D0 - Abnormally Dry" := by decide

/-- C2 (counterexample): the claim covers `0 ≤ p ≤ 100` and puts every
`p ≥ 95` in the "Much Above Normal" band, but at `p = 100` every band of
the code's table is exhausted (they are half-open) and the fallback
label "Normal" is returned. -/
theorem get_flow_status_at_100_cex :
    (95 : ℚ) ≤ 100 ∧ get_flow_status 100 = "Normal" ∧
    "Normal" ≠ "Much Above Normal" := by decide

/-- C9: `get_flow_status` is total, and for every percentile below 0 or
at/above 100 no configured band matches, so the catch-all label
"Normal" is returned. -/
theorem get_flow_status_catch_all (p : ℚ) (h : p < 0 ∨ 100 ≤ p) :
    get_flow_status p = "Normal" := by
  have hfalse : ∀ lo hi : ℚ, 0 ≤ lo → hi ≤ 100 →
      (decide (lo ≤ p) && decide (p < hi)) = false := by
    intro lo hi hlo hhi
    rcases h with h | h
    · simp [not_le.2 (h.trans_le hlo)]
    · simp [not_lt.2 (hhi.trans h)]
  have c1 := hfalse 0 5 (by norm_num) (by norm_num)
  have c2 := hfalse 5 10 (by norm_num) (by norm_num)
  have c3 := hfalse 10 25 (by norm_num) (by norm_num)
  have c4 := hfalse 25 75 (by norm_num) (by norm_num)
  have c5 := hfalse 75 90 (by norm_num) (by norm_num)
  have c6 := hfalse 90 95 (by norm_num) (by norm_num)
  have c7 := hfalse 95 100 (by norm_num) (by norm_num)
  simp [get_flow_status, FLOW_STATUS, List.find?, c1, c2, c3, c4, c5, c6, c7]

/-- Witness for C9 at the concrete percentile 100. -/
theorem get_flow_status_catch_all_witness : get_flow_status 100 = "Normal" :=
  get_flow_status_catch_all 100 (Or.inr (by norm_num))

/-- C10: with at least the minimum point count, non-negligible standard
deviation (variance at least `1e-20`, i.e. `np.std ≥ 1e-10`) and a window
of at least half an hour, any series whose median is below `1e-10` —
including every negative median — makes `calculate_trend` return
"unknown" with rate 0. -/
theorem calculate_trend_small_median_unknown (values : List (ℚ × ℚ)) (th_r th_f : ℚ)
    (h1 : TREND_MIN_POINTS ≤ values.length)
    (h2 : 1/10^20 ≤ listVariance (trendVals values))
    (h3 : 1/2 ≤ trendTotalHours values)
    (h4 : np_median (trendVals values) < 1/10^10) :
    calculate_trend values th_r th_f = ⟨"unknown", 0, none, values.length⟩ := by
  unfold calculate_trend
  rw [if_neg (not_lt.2 h1), if_neg (not_lt.2 h2), if_neg (not_lt.2 h3), if_pos h4]

/-- Witness for C10: a four-point, three-hour series of sub-zero
water temperatures whose median is −1. -/
theorem calculate_trend_small_median_unknown_witness :
    calculate_trend [(0, -5), (3600, -1), (7200, -1), (10800, 3)] 10 (-10) =
      ⟨"unknown", 0, none, 4⟩ :=
  calculate_trend_small_median_unknown _ _ _ (by decide) (by decide) (by decide) (by decide)

/-- C6: `hours_since_peak` of a trend result is populated exactly when
the classification is "falling" and the elapsed time from the first
maximum raw value to the last timestamp exceeds half an hour, in which
case it is that elapsed time in hours rounded to one decimal; in every
other case it is `None`. -/
theorem calculate_trend_hours_since_peak_spec (values : List (ℚ × ℚ)) (th_r th_f : ℚ) :
    (calculate_trend values th_r th_f).hours_since_peak =
      if (calculate_trend values th_r th_f).trend = "falling" ∧
          1/2 < hoursSincePeak values
      then some (pyround (hoursSincePeak values) 1) else none := by
  unfold calculate_trend
  split_ifs <;>
    simp_all [show ("unknown" : String) ≠ "falling" from by decide,
      show ("stable" : String) ≠ "falling" from by decide,
      show ("rising" : String) ≠ "falling" from by decide]
  all_goals linarith

/-- C8: any exception raised by the HTTP call inside `fetch_batch`, and
any non-200 response status, results in the empty record list instead of
a propagated exception, for every parser. -/
theorem fetch_batch_failure_empty {R : Type} (parse : String → List R)
    (outcome : Except String (ℕ × String))
    (h : (∃ e, outcome = .error e) ∨ ∃ s b, outcome = .ok (s, b) ∧ s ≠ 200) :
    fetch_batch parse outcome = [] := by
  rcases h with ⟨e, rfl⟩ | ⟨s, b, rfl, hs⟩
  · rfl
  · simp [fetch_batch, hs]

/-- Witness for C8: a raised timeout and a 503 response both yield the
empty record list. -/
theorem fetch_batch_failure_empty_witness :
    fetch_batch (fun _ => ([] : List ℕ)) (.error "timeout") = [] ∧
    fetch_batch (fun _ => ([] : List ℕ)) (.ok (503, "")) = [] :=
  ⟨fetch_batch_failure_empty _ _ (Or.inl ⟨_, rfl⟩),
   fetch_batch_failure_empty _ _ (Or.inr ⟨_, _, rfl, by decide⟩)⟩

/-- C2 (amended): on the half-open domain `0 ≤ p < 100` that the bands
actually cover (at `p = 100` the fallback fires, see the
counterexample), `get_flow_status` agrees with the spec's five coarse
bands, exactly one configured band of the table contains each such `p`
(no gaps, no overlaps), and the four spot checks of the claim hold. -/
theorem get_flow_status_bands_partition :
    (∀ p : ℚ, 0 ≤ p → p < 100 →
      get_flow_status p = flowStatusSpec p ∧
      (FLOW_STATUS.countP fun b => decide (b.1.1 ≤ p) && decide (p < b.1.2)) = 1) ∧
    get_flow_status (249/10) = "Below Normal" ∧
    get_flow_status 25 = "Normal" ∧
    get_flow_status (749/10) = "Normal" ∧
    get_flow_status 75 = "Above Normal" := by
  refine ⟨?_, by decide, by decide, by decide, by decide⟩
  intro p h0 h100
  have bt : ∀ lo hi : ℚ, lo ≤ p → p < hi →
      (decide (lo ≤ p) && decide (p < hi)) = true := by
    intro lo hi ha hb; simp [ha, hb]
  have bf1 : ∀ lo hi : ℚ, ¬ lo ≤ p → (decide (lo ≤ p) && decide (p < hi)) = false := by
    intro lo hi ha; simp [ha]
  have bf2 : ∀ lo hi : ℚ, ¬ p < hi → (decide (lo ≤ p) && decide (p < hi)) = false := by
    intro lo hi hb; simp [hb]
  rcases lt_or_le p 5 with h5 | h5
  · have c1 := bt 0 5 h0 h5
    have c2 := bf1 5 10 (not_le.2 h5)
    have c3 := bf1 10 25 (not_le.2 (h5.trans_le (by norm_num)))
    have c4 := bf1 25 75 (not_le.2 (h5.trans_le (by norm_num)))
    have c5 := bf1 75 90 (not_le.2 (h5.trans_le (by norm_num)))
    have c6 := bf1 90 95 (not_le.2 (h5.trans_le (by norm_num)))
    have c7 := bf1 95 100 (not_le.2 (h5.trans_le (by norm_num)))
    refine ⟨?_, ?_⟩
    · simp [get_flow_status, FLOW_STATUS, List.find?, flowStatusSpec, c1, h0, h5]
    · simp [FLOW_STATUS, List.countP_cons, List.countP_nil, c1, c2, c3, c4, c5, c6, c7]
  rcases lt_or_le p 10 with h10 | h10
  · have c1 := bf2 0 5 (not_lt.2 h5)
    have c2 := bt 5 10 h5 h10
    have c3 := bf1 10 25 (not_le.2 h10)
    have c4 := bf1 25 75 (not_le.2 (h10.trans_le (by norm_num)))
    have c5 := bf1 75 90 (not_le.2 (h10.trans_le (by norm_num)))
    have c6 := bf1 90 95 (not_le.2 (h10.trans_le (by norm_num)))
    have c7 := bf1 95 100 (not_le.2 (h10.trans_le (by norm_num)))
    refine ⟨?_, ?_⟩
    · simp [get_flow_status, FLOW_STATUS, List.find?, flowStatusSpec, c1, c2, h5, h10,
        not_lt.2 h5, h10.trans_le (show (10:ℚ) ≤ 25 by norm_num)]
    · simp [FLOW_STATUS, List.countP_cons, List.countP_nil, c1, c2, c3, c4, c5, c6, c7]
  rcases lt_or_le p 25 with h25 | h25
  · have c1 := bf2 0 5 (not_lt.2 (le_trans (by norm_num) h10))
    have c2 := bf2 5 10 (not_lt.2 h10)
    have c3 := bt 10 25 h10 h25
    have c4 := bf1 25 75 (not_le.2 h25)
    have c5 := bf1 75 90 (not_le.2 (h25.trans_le (by norm_num)))
    have c6 := bf1 90 95 (not_le.2 (h25.trans_le (by norm_num)))
    have c7 := bf1 95 100 (not_le.2 (h25.trans_le (by norm_num)))
    refine ⟨?_, ?_⟩
    · simp [get_flow_status, FLOW_STATUS, List.find?, flowStatusSpec, c1, c2, c3, h10, h25,
        not_lt.2 (le_trans (show (5:ℚ) ≤ 10 by norm_num) h10)]
    · simp [FLOW_STATUS, List.countP_cons, List.countP_nil, c1, c2, c3, c4, c5, c6, c7]
  rcases lt_or_le p 75 with h75 | h75
  · have c1 := bf2 0 5 (not_lt.2 (le_trans (by norm_num) h25))
    have c2 := bf2 5 10 (not_lt.2 (le_trans (by norm_num) h25))
    have c3 := bf2 10 25 (not_lt.2 h25)
    have c4 := bt 25 75 h25 h75
    have c5 := bf1 75 90 (not_le.2 h75)
    have c6 := bf1 90 95 (not_le.2 (h75.trans_le (by norm_num)))
    have c7 := bf1 95 100 (not_le.2 (h75.trans_le (by norm_num)))
    refine ⟨?_, ?_⟩
    · simp [get_flow_status, FLOW_STATUS, List.find?, flowStatusSpec, c1, c2, c3, c4, h25, h75,
        not_lt.2 (le_trans (show (5:ℚ) ≤ 25 by norm_num) h25),
        not_lt.2 (le_trans (show (25:ℚ) ≤ 25 by norm_num) h25)]
    · simp [FLOW_STATUS, List.countP_cons, List.countP_nil, c1, c2, c3, c4, c5, c6, c7]
  rcases lt_or_le p 90 with h90 | h90
  · have c1 := bf2 0 5 (not_lt.2 (le_trans (by norm_num) h75))
    have c2 := bf2 5 10 (not_lt.2 (le_trans (by norm_num) h75))
    have c3 := bf2 10 25 (not_lt.2 (le_trans (by norm_num) h75))
    have c4 := bf2 25 75 (not_lt.2 h75)
    have c5 := bt 75 90 h75 h90
    have c6 := bf1 90 95 (not_le.2 h90)
    have c7 := bf1 95 100 (not_le.2 (h90.trans_le (by norm_num)))
    refine ⟨?_, ?_⟩
    · simp [get_flow_status, FLOW_STATUS, List.find?, flowStatusSpec, c1, c2, c3, c4, c5, h75, h90,
        not_lt.2 (le_trans (show (5:ℚ) ≤ 75 by norm_num) h75),
        not_lt.2 (le_trans (show (25:ℚ) ≤ 75 by norm_num) h75),
        not_lt.2 h75, h90.trans_le (show (90:ℚ) ≤ 95 by norm_num)]
    · simp [FLOW_STATUS, List.countP_cons, List.countP_nil, c1, c2, c3, c4, c5, c6, c7]
  rcases lt_or_le p 95 with h95 | h95
  · have c1 := bf2 0 5 (not_lt.2 (le_trans (by norm_num) h90))
    have c2 := bf2 5 10 (not_lt.2 (le_trans (by norm_num) h90))
    have c3 := bf2 10 25 (not_lt.2 (le_trans (by norm_num) h90))
    have c4 := bf2 25 75 (not_lt.2 (le_trans (by norm_num) h90))
    have c5 := bf2 75 90 (not_lt.2 h90)
    have c6 := bt 90 95 h90 h95
    have c7 := bf1 95 100 (not_le.2 h95)
    refine ⟨?_, ?_⟩
    · simp [get_flow_status, FLOW_STATUS, List.find?, flowStatusSpec, c1, c2, c3, c4, c5, c6, h90, h95,
        not_lt.2 (le_trans (show (5:ℚ) ≤ 90 by norm_num) h90),
        not_lt.2 (le_trans (show (25:ℚ) ≤ 90 by norm_num) h90),
        not_lt.2 (le_trans (show (75:ℚ) ≤ 90 by norm_num) h90)]
    · simp [FLOW_STATUS, List.countP_cons, List.countP_nil, c1, c2, c3, c4, c5, c6, c7]
  · have c1 := bf2 0 5 (not_lt.2 (le_trans (by norm_num) h95))
    have c2 := bf2 5 10 (not_lt.2 (le_trans (by norm_num) h95))
    have c3 := bf2 10 25 (not_lt.2 (le_trans (by norm_num) h95))
    have c4 := bf2 25 75 (not_lt.2 (le_trans (by norm_num) h95))
    have c5 := bf2 75 90 (not_lt.2 (le_trans (by norm_num) h95))
    have c6 := bf2 90 95 (not_lt.2 h95)
    have c7 := bt 95 100 h95 h100
    refine ⟨?_, ?_⟩
    · simp [get_flow_status, FLOW_STATUS, List.find?, flowStatusSpec, c1, c2, c3, c4, c5, c6, c7, h95, h100,
        not_lt.2 (le_trans (show (5:ℚ) ≤ 95 by norm_num) h95),
        not_lt.2 (le_trans (show (25:ℚ) ≤ 95 by norm_num) h95),
        not_lt.2 (le_trans (show (75:ℚ) ≤ 95 by norm_num) h95),
        not_lt.2 h95]
    · simp [FLOW_STATUS, List.countP_cons, List.countP_nil, c1, c2, c3, c4, c5, c6, c7]

/-- Witness for C2 at the concrete percentile 50. -/
theorem get_flow_status_bands_partition_witness :
    get_flow_status 50 = flowStatusSpec 50 :=
  (get_flow_status_bands_partition.1 50 (by norm_num) (by norm_num)).1

/-- Variance of a constant list is zero (`np.std` of a constant array is
zero, hence below any positive guard). -/
theorem listVariance_of_const (xs : List ℚ) (c : ℚ) (h : ∀ v ∈ xs, v = c) :
    listVariance xs = 0 := by
  cases xs with
  | nil => simp [listVariance, listMean]
  | cons a tl =>
    have hne : (((a :: tl).length : ℕ) : ℚ) ≠ 0 := Nat.cast_ne_zero.2 (by simp)
    have hsum : (a :: tl).sum = (a :: tl).length • c := List.sum_eq_card_nsmul _ c h
    have hmean : listMean (a :: tl) = c := by
      rw [listMean, hsum, nsmul_eq_mul, mul_div_cancel_left₀ c hne]
    rw [listVariance, hmean]
    have hz : ((a :: tl).map fun v => (v - c) ^ 2).sum = 0 := by
      refine List.sum_eq_zero ?_
      intro x hx
      obtain ⟨v, hv, rfl⟩ := List.mem_map.1 hx
      rw [h v hv]; ring
    rw [hz, zero_div]

/-- C5 (counterexample): a chronologically ordered, strictly increasing
four-point series spanning three hours with positive median and a
normalized total change of 120 percent — every hypothesis of the claim —
is classified "stable", not "rising", because its raw values are so
small (about `1e-12`) that the standard-deviation guard fires first. -/
theorem calculate_trend_tiny_rising_cex :
    List.Chain' (· ≤ ·)
      (trendTimestamps [(0, 1/10^12), (3600, 2/10^12), (7200, 3/10^12), (10800, 4/10^12)]) ∧
    List.Chain' (· < ·)
      (trendVals [(0, 1/10^12), (3600, 2/10^12), (7200, 3/10^12), (10800, 4/10^12)]) ∧
    4 ≤ ([(0, 1/10^12), (3600, 2/10^12), (7200, 3/10^12), (10800, 4/10^12)] :
        List (ℚ × ℚ)).length ∧
    1/2 ≤ trendTotalHours [(0, 1/10^12), (3600, 2/10^12), (7200, 3/10^12), (10800, 4/10^12)] ∧
    0 < np_median (trendVals
        [(0, 1/10^12), (3600, 2/10^12), (7200, 3/10^12), (10800, 4/10^12)]) ∧
    10 < trendRate [(0, 1/10^12), (3600, 2/10^12), (7200, 3/10^12), (10800, 4/10^12)] *
        trendTotalHours [(0, 1/10^12), (3600, 2/10^12), (7200, 3/10^12), (10800, 4/10^12)] ∧
    (calculate_trend [(0, 1/10^12), (3600, 2/10^12), (7200, 3/10^12), (10800, 4/10^12)]
        10 (-10)).trend = "stable" := by
  refine ⟨?_, ?_, by decide, by decide, by decide, by decide, by decide⟩
  · norm_num [trendTimestamps, List.chain'_cons, List.chain'_singleton]
  · norm_num [trendVals, List.chain'_cons, List.chain'_singleton]

/-- C5 (amended): fewer than the minimum 4 points yields "unknown" with
rate 0 for any thresholds; a constant series of at least 4 points yields
"stable" with rate 0; and a chronologically ordered, strictly increasing
series of at least 4 points spanning at least half an hour whose median
is at least `1e-10` and whose variance is at least `1e-20` (so neither
degeneracy guard fires — the counterexample shows "positive median"
alone is not enough) and whose fitted slope times the elapsed hours
exceeds 10 percent is classified "rising". -/
theorem calculate_trend_classification :
    (∀ (values : List (ℚ × ℚ)) (th_r th_f : ℚ), values.length < TREND_MIN_POINTS →
      calculate_trend values th_r th_f = ⟨"unknown", 0, none, values.length⟩) ∧
    (∀ (values : List (ℚ × ℚ)) (th_r th_f c : ℚ), TREND_MIN_POINTS ≤ values.length →
      (∀ v ∈ values, v.2 = c) →
      calculate_trend values th_r th_f = ⟨"stable", 0, none, values.length⟩) ∧
    (∀ values : List (ℚ × ℚ),
      List.Chain' (· ≤ ·) (trendTimestamps values) →
      List.Chain' (· < ·) (trendVals values) →
      TREND_MIN_POINTS ≤ values.length →
      1/2 ≤ trendTotalHours values →
      1/10^10 ≤ np_median (trendVals values) →
      1/10^20 ≤ listVariance (trendVals values) →
      10 < trendRate values * trendTotalHours values →
      (calculate_trend values 10 (-10)).trend = "rising") := by
  refine ⟨?_, ?_, ?_⟩
  · intro values th_r th_f h
    rw [calculate_trend, if_pos h]
  · intro values th_r th_f c hlen hconst
    have hv : listVariance (trendVals values) = 0 := by
      refine listVariance_of_const _ c ?_
      intro v hv
      obtain ⟨x, hx, rfl⟩ := List.mem_map.1 hv
      exact hconst x hx
    rw [calculate_trend, if_neg (not_lt.2 hlen), if_pos (by rw [hv]; norm_num)]
  · intro values h1 h2 h3 h4 h5 h6 h7
    rw [calculate_trend, if_neg (not_lt.2 h3), if_neg (not_lt.2 h6), if_neg (not_lt.2 h4),
      if_neg (not_lt.2 h5), if_pos (le_of_lt h7)]

/-- Witness for C5 on a concrete rising series (100 → 400 over three
hours, normalized total change 120 percent). -/
theorem calculate_trend_classification_witness :
    (calculate_trend [(0, 100), (3600, 200), (7200, 300), (10800, 400)] 10 (-10)).trend =
      "rising" :=
  calculate_trend_classification.2.2 _
    (by norm_num [trendTimestamps, List.chain'_cons, List.chain'_singleton])
    (by norm_num [trendVals, List.chain'_cons, List.chain'_singleton])
    (by decide) (by decide) (by decide) (by decide) (by decide)

/-- C7 (counterexample): five samples on day-of-year 62 produce one row
whose `month_day` is the impossible date February 31, while the true
calendar date of day 62 is March 3 (common year) or March 2 (leap
year) — so rows are keyed by the approximate encoding, not by the true
calendar date. -/
theorem calculate_percentiles_manual_month_day_cex :
    (calculate_percentiles_manual [(62, 1), (62, 2), (62, 3), (62, 4), (62, 5)]).map
        (fun r => (r.doy, r.month_day)) = [(62, (2, 31))] ∧
    calendarMonthDayOfDoy false 62 = (3, 3) ∧
    calendarMonthDayOfDoy true 62 = (3, 2) ∧
    ((2, 31) : ℕ × ℕ) ≠ (3, 3) ∧
    ((2, 31) : ℕ × ℕ) ≠ (3, 2) := by decide

/-- C7 (amended): a row for day-of-year `d` (with `1 ≤ d ≤ 366`) is
emitted iff the bucket for `d` holds at least 5 samples, and every
emitted row's `month_day` equals the code's approximate encoding
`(((doy−1) div 31)+1, ((doy−1) mod 31)+1)` of its day-of-year — which,
per the counterexample, is not always the true calendar date. -/
theorem calculate_percentiles_manual_rows (samples : List (ℕ × ℚ)) (d : ℕ)
    (h1 : 1 ≤ d) (h2 : d ≤ 366) :
    ((∃ r ∈ calculate_percentiles_manual samples, r.doy = d) ↔
      5 ≤ (samples.filter fun s => s.1 == d).length) ∧
    ∀ r ∈ calculate_percentiles_manual samples,
      r.month_day = ((r.doy - 1) / 31 + 1, (r.doy - 1) % 31 + 1) := by
  constructor
  · constructor
    · rintro ⟨r, hr, rfl⟩
      simp only [calculate_percentiles_manual, List.mem_filterMap] at hr
      obtain ⟨a, _, hfa⟩ := hr
      by_cases hl : ((samples.filter fun s => s.1 == a).map Prod.snd).length < 5
      · rw [if_pos hl] at hfa
        exact absurd hfa (by simp)
      · rw [if_neg hl] at hfa
        obtain rfl := Option.some.inj hfa
        simpa [List.length_map] using not_lt.1 hl
    · intro hcount
      refine ⟨⟨d, ((d - 1) / 31 + 1, (d - 1) % 31 + 1),
        PERCENTILES.map fun p =>
          (p, np_percentile ((samples.filter fun s => s.1 == d).map Prod.snd) p)⟩, ?_, rfl⟩
      simp only [calculate_percentiles_manual, List.mem_filterMap]
      refine ⟨d, List.mem_range'_1.2 ⟨h1, by omega⟩, ?_⟩
      rw [if_neg (not_lt.2 (by simpa [List.length_map] using hcount))]
  · intro r hr
    simp only [calculate_percentiles_manual, List.mem_filterMap] at hr
    obtain ⟨a, _, hfa⟩ := hr
    by_cases hl : ((samples.filter fun s => s.1 == a).map Prod.snd).length < 5
    · rw [if_pos hl] at hfa
      exact absurd hfa (by simp)
    · rw [if_neg hl] at hfa
      obtain rfl := Option.some.inj hfa
      rfl

/-- Witness for C7: the day-62 bucket with exactly 5 samples emits a
row. -/
theorem calculate_percentiles_manual_rows_witness :
    ∃ r ∈ calculate_percentiles_manual [(62, 1), (62, 2), (62, 3), (62, 4), (62, 5)],
      r.doy = 62 :=
  (calculate_percentiles_manual_rows _ 62 (by decide) (by decide)).1.mpr (by decide)

/-- The last element (with default) does not depend on the default when
the list is nonempty. -/
theorem getLastD_congr {α : Type _} (l : List α) (h : l ≠ []) (d d' : α) :
    l.getLastD d = l.getLastD d' := by
  cases l with
  | nil => cases h rfl
  | cons a tl =>
    rw [List.getLastD_eq_getLast?, List.getLastD_eq_getLast?,
      List.getLast?_eq_getLast (a :: tl) (List.cons_ne_nil a tl)]
    rfl

/-- The last element (with default) of a nonempty list is a member. -/
theorem getLastD_mem {α : Type _} (l : List α) (h : l ≠ []) (d : α) : l.getLastD d ∈ l := by
  cases l with
  | nil => cases h rfl
  | cons a tl =>
    rw [List.getLastD_eq_getLast?, List.getLast?_eq_getLast (a :: tl) (List.cons_ne_nil a tl)]
    exact List.getLast_mem _

/-- Mapping commutes with taking the last element of a nonempty list,
for arbitrary defaults. -/
theorem getLastD_map {α β : Type _} (f : α → β) :
    ∀ (l : List α), l ≠ [] → ∀ (d : α) (d' : β), (l.map f).getLastD d' = f (l.getLastD d)
  | [], h, _, _ => absurd rfl h
  | [_], _, _, _ => rfl
  | a :: b :: tl, _, d, d' => by
    rw [List.map_cons, List.getLastD_cons, List.getLastD_cons]
    exact getLastD_map f (b :: tl) (List.cons_ne_nil _ _) a (f a)

/-- In a `≤`-chain the first element is at most the last. -/
theorem chain'_headD_le_getLastD :
    ∀ (l : List ℚ), List.Chain' (· ≤ ·) l → ∀ d d' : ℚ, l ≠ [] → l.headD d ≤ l.getLastD d'
  | [], _, _, _, h => absurd rfl h
  | [a], _, _, _, _ => le_refl a
  | a :: b :: tl, h, d, d', _ => by
    have h1 : a ≤ b := (List.chain'_cons.1 h).1
    have h2 := chain'_headD_le_getLastD (b :: tl) (List.chain'_cons.1 h).2 b d'
      (List.cons_ne_nil _ _)
    rw [List.getLastD_cons, getLastD_congr (b :: tl) (List.cons_ne_nil _ _) a d']
    exact le_trans h1 h2

/-- The head ordinate of a chain of pairs is at most the last
ordinate. -/
theorem snd_le_getLastD_snd :
    ∀ (v p : ℚ) (l : List (ℚ × ℚ)) (d : ℚ × ℚ),
      List.Chain' (fun a b : ℚ × ℚ => a.2 ≤ b.2) ((v, p) :: l) →
      p ≤ (((v, p) :: l).getLastD d).2
  | _, p, [], _, _ => le_refl p
  | v, p, (v2, p2) :: tl, d, hch => by
    rw [List.getLastD_cons]
    exact le_trans (List.chain'_cons.1 hch).1
      (snd_le_getLastD_snd v2 p2 tl (v, p) (List.chain'_cons.1 hch).2)

/-- Lower bound for `np_interp`: on a list whose ordinates are
non-decreasing, with an abscissa at or past the first point, the result
is at least the first ordinate. -/
theorem np_interp_ge :
    ∀ (x v p : ℚ) (l : List (ℚ × ℚ)),
      List.Chain' (fun a b : ℚ × ℚ => a.2 ≤ b.2) ((v, p) :: l) →
      v ≤ x → p ≤ np_interp x ((v, p) :: l)
  | x, v, p, [], _, _ => le_refl p
  | x, v, p, (v2, p2) :: rest, hch, hvx => by
    have hp : p ≤ p2 := (List.chain'_cons.1 hch).1
    have hch2 := (List.chain'_cons.1 hch).2
    rw [np_interp]
    split_ifs with h1 h2
    · exact le_trans hp (np_interp_ge x v2 p2 rest hch2 h1)
    · exact le_refl p
    · have hxv2 : x < v2 := not_le.1 h1
      have hvv2 : v < v2 := lt_of_le_of_lt hvx hxv2
      have hs : 0 ≤ (p2 - p) / (v2 - v) := div_nonneg (by linarith) (by linarith)
      have := mul_nonneg hs (by linarith : (0 : ℚ) ≤ x - v)
      linarith

/-- Upper bound for `np_interp`: on a list non-decreasing in both
coordinates the result is at most the last ordinate. -/
theorem np_interp_le_getLastD :
    ∀ (x : ℚ) (l : List (ℚ × ℚ)) (d : ℚ × ℚ), l ≠ [] →
      List.Chain' (fun a b : ℚ × ℚ => a.1 ≤ b.1) l →
      List.Chain' (fun a b : ℚ × ℚ => a.2 ≤ b.2) l →
      np_interp x l ≤ (l.getLastD d).2
  | _, [], _, h, _, _ => absurd rfl h
  | x, [(_, p)], _, _, _, _ => le_refl p
  | x, (v1, p1) :: (v2, p2) :: rest, d, _, hch1, hch2 => by
    have hv : v1 ≤ v2 := (List.chain'_cons.1 hch1).1
    have hp : p1 ≤ p2 := (List.chain'_cons.1 hch2).1
    have t1 := (List.chain'_cons.1 hch1).2
    have t2 := (List.chain'_cons.1 hch2).2
    rw [np_interp, List.getLastD_cons]
    split_ifs with h1 h2
    · exact np_interp_le_getLastD x ((v2, p2) :: rest) (v1, p1)
        (List.cons_ne_nil _ _) t1 t2
    · exact le_trans hp (snd_le_getLastD_snd v2 p2 rest (v1, p1) t2)
    · have hxv2 : x < v2 := not_le.1 h1
      have hlast := snd_le_getLastD_snd v2 p2 rest (v1, p1) t2
      rcases eq_or_lt_of_le hv with heq | hlt
      · have hz : v2 - v1 = 0 := by rw [heq, sub_self]
        rw [hz, div_zero, zero_mul, add_zero]
        exact le_trans hp hlast
      · have hs : 0 ≤ (p2 - p1) / (v2 - v1) := div_nonneg (by linarith) (by linarith)
        have hb : (p2 - p1) / (v2 - v1) * (x - v1) ≤ (p2 - p1) / (v2 - v1) * (v2 - v1) :=
          mul_le_mul_of_nonneg_left (by linarith) hs
        have hc : (p2 - p1) / (v2 - v1) * (v2 - v1) = p2 - p1 :=
          div_mul_cancel₀ _ (by linarith)
        linarith

/-- Monotonicity of `np_interp` in the abscissa, on a list
non-decreasing in both coordinates, starting at or past the first
point. -/
theorem np_interp_mono :
    ∀ (x y v p : ℚ) (l : List (ℚ × ℚ)),
      List.Chain' (fun a b : ℚ × ℚ => a.1 ≤ b.1) ((v, p) :: l) →
      List.Chain' (fun a b : ℚ × ℚ => a.2 ≤ b.2) ((v, p) :: l) →
      v ≤ x → x ≤ y → np_interp x ((v, p) :: l) ≤ np_interp y ((v, p) :: l)
  | _, _, _, p, [], _, _, _, _ => le_refl p
  | x, y, v, p, (v2, p2) :: rest, hch1, hch2, hvx, hxy => by
    have hp12 : p ≤ p2 := (List.chain'_cons.1 hch2).1
    have t1 := (List.chain'_cons.1 hch1).2
    have t2 := (List.chain'_cons.1 hch2).2
    rw [np_interp, np_interp]
    by_cases hx2 : v2 ≤ x
    · rw [if_pos hx2, if_pos (le_trans hx2 hxy)]
      exact np_interp_mono x y v2 p2 rest t1 t2 hx2 hxy
    · rw [if_neg hx2]
      have hxv2 : x < v2 := not_le.1 hx2
      have hvv2 : v < v2 := lt_of_le_of_lt hvx hxv2
      have hs : 0 ≤ (p2 - p) / (v2 - v) := div_nonneg (by linarith) (by linarith)
      by_cases hy2 : v2 ≤ y
      · rw [if_pos hy2]
        have hrhs : p2 ≤ np_interp y ((v2, p2) :: rest) := np_interp_ge y v2 p2 rest t2 hy2
        have hlhs : (if x = v then p else p + (p2 - p) / (v2 - v) * (x - v)) ≤ p2 := by
          split_ifs with hxv
          · exact hp12
          · have hb : (p2 - p) / (v2 - v) * (x - v) ≤ (p2 - p) / (v2 - v) * (v2 - v) :=
              mul_le_mul_of_nonneg_left (by linarith) hs
            have hc : (p2 - p) / (v2 - v) * (v2 - v) = p2 - p :=
              div_mul_cancel₀ _ (by linarith)
            linarith
        exact le_trans hlhs hrhs
      · rw [if_neg hy2]
        split_ifs with hxv hyv hyv
        · exact le_refl p
        · have := mul_nonneg hs (by rw [← hxv]; linarith : (0 : ℚ) ≤ y - v)
          linarith
        · exact absurd (le_antisymm (hyv ▸ hxy) hvx) hxv
        · have := mul_le_mul_of_nonneg_left (by linarith : x - v ≤ y - v) hs
          linarith

/-- Under pairwise strictly increasing keys, the insertion sort inside
`interpolate_percentile` is the identity and the function takes the
unfolded branch form. -/
theorem interpolate_percentile_of_sorted (cf : ℚ) (t : List (ℕ × ℚ))
    (ht : t.Pairwise fun a b => a.1 < b.1) :
    interpolate_percentile cf t =
      if t.length < 2 then none
      else if cf ≤ (t.map Prod.snd).headD 0 then
        some ((t.map fun q => (q.1 : ℚ)).headD 0)
      else if (t.map Prod.snd).getLastD 0 ≤ cf then
        some ((t.map fun q => (q.1 : ℚ)).getLastD 0)
      else some (np_interp cf ((t.map Prod.snd).zip (t.map fun q => (q.1 : ℚ)))) := by
  have hs : List.insertionSort (fun a b : ℕ × ℚ => a.1 ≤ b.1) t = t :=
    List.Sorted.insertionSort_eq (ht.imp fun h => le_of_lt h)
  simp only [interpolate_percentile, hs]

/-- C3 (counterexample): with thresholds `{5: 1.0, 95: 1.0}` — two
entries, values non-decreasing — the input 1.0 is at or above the
maximum threshold value, yet the result is the lowest rank 5, not the
highest rank 95, because the low clamp is tested first. -/
theorem interpolate_percentile_equal_vals_cex :
    (∀ v ∈ ([(5, 1), (95, 1)] : List (ℕ × ℚ)).map Prod.snd, v ≤ (1 : ℚ)) ∧
    interpolate_percentile 1 [(5, 1), (95, 1)] = some 5 ∧
    some (5 : ℚ) ≠ some (95 : ℚ) := by decide

/-- C3 (amended): with fewer than 2 entries the result is `None`; with
at least 2 entries, strictly increasing percentile keys (a dict,
canonically key-sorted) and values non-decreasing in rank, an input at
or below every threshold value yields the lowest rank, and an input at
or above every threshold value yields the highest rank **provided** it
is strictly above the minimum value — when all values are equal and the
input ties them, the low clamp wins and the lowest rank is returned
(see the counterexample). -/
theorem interpolate_percentile_clamps :
    (∀ (cf : ℚ) (t : List (ℕ × ℚ)), t.length < 2 → interpolate_percentile cf t = none) ∧
    (∀ (cf : ℚ) (t : List (ℕ × ℚ)),
      t.Pairwise (fun a b => a.1 < b.1) →
      List.Chain' (· ≤ ·) (t.map Prod.snd) →
      2 ≤ t.length →
      ((∀ v ∈ t.map Prod.snd, cf ≤ v) →
        interpolate_percentile cf t = some ((t.headD (0, 0)).1 : ℚ)) ∧
      ((t.map Prod.snd).headD 0 < cf → (∀ v ∈ t.map Prod.snd, v ≤ cf) →
        interpolate_percentile cf t = some ((t.getLastD (0, 0)).1 : ℚ))) := by
  constructor
  · intro cf t h
    simp only [interpolate_percentile, if_pos h]
  · intro cf t ht _hv hlen
    obtain ⟨a, t', rfl⟩ : ∃ a t', t = a :: t' := by
      cases t with
      | nil => simp at hlen
      | cons a t' => exact ⟨a, t', rfl⟩
    constructor
    · intro hmin
      have hc : cf ≤ ((a :: t').map Prod.snd).headD 0 := by
        simp only [List.map_cons, List.headD_cons]
        exact hmin a.2 (by simp)
      rw [interpolate_percentile_of_sorted _ _ ht, if_neg (not_lt.2 hlen), if_pos hc]
      simp
    · intro hgt hmax
      rw [interpolate_percentile_of_sorted _ _ ht, if_neg (not_lt.2 hlen)]
      have h1 : ¬ cf ≤ ((a :: t').map Prod.snd).headD 0 := not_le.2 hgt
      rw [if_neg h1,
        if_pos (hmax _ (getLastD_mem ((a :: t').map Prod.snd) (by simp) 0)),
        getLastD_map (fun q => ((q.1 : ℕ) : ℚ)) (a :: t') (List.cons_ne_nil _ _) (0, 0) 0]

/-- Witness for C3 on the spec's end-to-end example: thresholds
`{10: 100, 50: 500, 90: 900}`, input 50 is below every threshold value
and clamps to the lowest rank 10. -/
theorem interpolate_percentile_clamps_witness :
    interpolate_percentile 50 [(10, 100), (50, 500), (90, 900)] = some 10 := by
  have h := (interpolate_percentile_clamps.2 50 [(10, 100), (50, 500), (90, 900)]
    (by decide) (by norm_num [List.chain'_cons, List.chain'_singleton]) (by decide)).1
    (by decide)
  simpa using h

set_option maxHeartbeats 1000000 in
/-- C4: for a fixed thresholds mapping with at least 2 entries, strictly
increasing percentile keys and values non-decreasing in rank,
`interpolate_percentile` is defined everywhere and monotone in the input
value. -/
theorem interpolate_percentile_monotone (t : List (ℕ × ℚ))
    (ht : t.Pairwise fun a b => a.1 < b.1)
    (hv : List.Chain' (· ≤ ·) (t.map Prod.snd))
    (hlen : 2 ≤ t.length) (v1 v2 : ℚ) (h12 : v1 ≤ v2) :
    ∃ p1 p2, interpolate_percentile v1 t = some p1 ∧
      interpolate_percentile v2 t = some p2 ∧ p1 ≤ p2 := by
  obtain ⟨a, t', rfl⟩ : ∃ a t', t = a :: t' := by
    cases t with
    | nil => simp at hlen
    | cons a t' => exact ⟨a, t', rfl⟩
  have hzip : ((a :: t').map Prod.snd).zip ((a :: t').map fun q => (q.1 : ℚ)) =
      (a :: t').map fun q => (q.2, (q.1 : ℚ)) := List.zip_map' _ _ _
  have hpQ : List.Pairwise (fun x y : ℕ × ℚ => (x.1 : ℚ) ≤ (y.1 : ℚ)) (a :: t') :=
    ht.imp fun h => by exact_mod_cast le_of_lt h
  have hch1 : List.Chain' (fun x y : ℚ × ℚ => x.1 ≤ y.1)
      ((a :: t').map fun q => (q.2, (q.1 : ℚ))) :=
    (List.chain'_map _).2 ((List.chain'_map Prod.snd).1 hv)
  have hch2 : List.Chain' (fun x y : ℚ × ℚ => x.2 ≤ y.2)
      ((a :: t').map fun q => (q.2, (q.1 : ℚ))) :=
    (List.chain'_map _).2 hpQ.chain'
  have hchp : List.Chain' (· ≤ ·) ((a :: t').map fun q => (q.1 : ℚ)) :=
    (List.chain'_map _).2 hpQ.chain'
  have hcons : ((a :: t').map fun q => (q.2, (q.1 : ℚ))) =
      (a.2, (a.1 : ℚ)) :: (t'.map fun q => (q.2, (q.1 : ℚ))) := by
    simp
  rw [interpolate_percentile_of_sorted v1 _ ht, interpolate_percentile_of_sorted v2 _ ht,
    if_neg (not_lt.2 hlen), if_neg (not_lt.2 hlen), hzip]
  have hhd : ((a :: t').map Prod.snd).headD 0 = a.2 := by simp
  by_cases hx1 : v1 ≤ ((a :: t').map Prod.snd).headD 0
  · by_cases hx2 : v2 ≤ ((a :: t').map Prod.snd).headD 0
    · exact ⟨_, _, by rw [if_pos hx1], by rw [if_pos hx2], le_refl _⟩
    · by_cases hy2 : ((a :: t').map Prod.snd).getLastD 0 ≤ v2
      · refine ⟨_, _, by rw [if_pos hx1], by rw [if_neg hx2, if_pos hy2], ?_⟩
        exact chain'_headD_le_getLastD _ hchp 0 0 (by simp)
      · refine ⟨_, _, by rw [if_pos hx1], by rw [if_neg hx2, if_neg hy2], ?_⟩
        rw [hcons]
        have hstart : a.2 ≤ v2 := le_of_lt (by rw [← hhd]; exact not_le.1 hx2)
        have hge := np_interp_ge v2 a.2 (a.1 : ℚ) (t'.map fun q => (q.2, (q.1 : ℚ)))
          (by rw [← hcons]; exact hch2) hstart
        calc ((a :: t').map fun q => (q.1 : ℚ)).headD 0 = (a.1 : ℚ) := by simp
          _ ≤ _ := hge
  · have hx2 : ¬ v2 ≤ ((a :: t').map Prod.snd).headD 0 := fun hc =>
      hx1 (le_trans h12 hc)
    by_cases hy1 : ((a :: t').map Prod.snd).getLastD 0 ≤ v1
    · have hy2 : ((a :: t').map Prod.snd).getLastD 0 ≤ v2 := le_trans hy1 h12
      exact ⟨_, _, by rw [if_neg hx1, if_pos hy1], by rw [if_neg hx2, if_pos hy2], le_refl _⟩
    · by_cases hy2 : ((a :: t').map Prod.snd).getLastD 0 ≤ v2
      · refine ⟨_, _, by rw [if_neg hx1, if_neg hy1], by rw [if_neg hx2, if_pos hy2], ?_⟩
        have hub := np_interp_le_getLastD v1 ((a :: t').map fun q => (q.2, (q.1 : ℚ)))
          ((0 : ℚ), (0 : ℚ)) (by simp) hch1 hch2
        have hlast : ((((a :: t').map fun q => (q.2, (q.1 : ℚ))).getLastD (0, 0)).2) =
            ((a :: t').map fun q => (q.1 : ℚ)).getLastD 0 := by
          rw [getLastD_map (fun q => (q.2, (q.1 : ℚ))) (a :: t') (List.cons_ne_nil _ _) (0, 0),
            getLastD_map (fun q => ((q.1 : ℕ) : ℚ)) (a :: t') (List.cons_ne_nil _ _) (0, 0) 0]
        rw [← hlast]
        exact hub
      · refine ⟨_, _, by rw [if_neg hx1, if_neg hy1], by rw [if_neg hx2, if_neg hy2], ?_⟩
        rw [hcons]
        have hstart : a.2 ≤ v1 := le_of_lt (by rw [← hhd]; exact not_le.1 hx1)
        exact np_interp_mono v1 v2 a.2 (a.1 : ℚ) (t'.map fun q => (q.2, (q.1 : ℚ)))
          (by rw [← hcons]; exact hch1) (by rw [← hcons]; exact hch2) hstart h12

/-- Witness for C4: monotonicity at inputs 150 ≤ 700 on the thresholds
`{10: 100, 50: 500, 90: 900}`. -/
theorem interpolate_percentile_monotone_witness :
    ∃ p1 p2, interpolate_percentile 150 [(10, 100), (50, 500), (90, 900)] = some p1 ∧
      interpolate_percentile 700 [(10, 100), (50, 500), (90, 900)] = some p2 ∧ p1 ≤ p2 :=
  interpolate_percentile_monotone [(10, 100), (50, 500), (90, 900)] (by decide)
    (by norm_num [List.chain'_cons, List.chain'_singleton]) (by decide) 150 700 (by norm_num)

end Proofs

end RiverRouter
